import Mathlib

/-!
Verification development for the EagleWings simulation module.

Shallow embedding of `src/enhanced_simulation.py` and `src/simulation.py`:
the battery-status classifier, the monitor's poll-processing step, the
charging-spot search/approach protocol (time measured in tenths of a
second), the retry-wrapped command executor, and the lock/callback event
discipline of each operation.  Field writes, lock acquire/release and
callback invocations are recorded as an explicit event trace so that the
locking discipline can be stated and checked.
-/

/-- Battery status enumeration (`BatteryStatus` in `enhanced_simulation.py`). -/
inductive BatteryStatus where
  | normal
  | warning
  | critical
  | charging
deriving DecidableEq, Repr

/-- Battery configuration (`BatteryConfig`): three integer thresholds and a
poll interval (seconds, modelled as a rational). -/
structure BatteryConfig where
  warning_threshold : Int
  critical_threshold : Int
  charging_threshold : Int
  check_interval : ℚ
deriving DecidableEq, Repr

/-- A pixel-space point (marker corner / centroid coordinates). -/
def Point : Type := ℚ × ℚ

instance : DecidableEq Point := instDecidableEqProd

/-- The component-wise mean of a list of points, as computed by
`np.mean(corner[0], axis=0)` on the 4x2 corner array. -/
def meanPoint (ps : List Point) : Point :=
  ((ps.map Prod.fst).sum / (ps.length : ℚ), (ps.map Prod.snd).sum / (ps.length : ℚ))

/-- A camera frame, abstracted to what the ArUco detector extracts from it:
the list of detected markers, each an id with its corner points.  An empty
list models `ids is None`. -/
structure Frame where
  markers : List (Nat × List Point)
deriving DecidableEq

/-- Callback slots (`battery_callback`, `charging_callback`, `status_callback`). -/
inductive Cb where
  | battery
  | charging
  | status
deriving DecidableEq, Repr

/-- Names of the instance fields that the operations write. -/
inductive Fld where
  | lastBatteryLevel
  | currentStatus
  | chargingSpotFound
  | chargingSpotPosition
  | warningThreshold
  | criticalThreshold
  | chargingThreshold
  | checkInterval
deriving DecidableEq, Repr

/-- Observable events of an operation: lock acquire/release, a field write,
a callback invocation, and the entry into `_search_charging_spot`. -/
inductive Ev where
  | acquire
  | release
  | write (f : Fld)
  | callback (c : Cb)
  | searchStart
deriving DecidableEq, Repr

/-- Annotate each event with the lock-hold depth at which it executes:
an `acquire` executes at the current depth and raises it, a `release`
executes at the lowered depth. -/
def annot : Nat → List Ev → List (Ev × Nat)
  | _, [] => []
  | n, Ev.acquire :: r => (Ev.acquire, n) :: annot (n + 1) r
  | n, Ev.release :: r => (Ev.release, n - 1) :: annot (n - 1) r
  | n, e :: r => (e, n) :: annot n r

/-- The mutable instance state of `EnhancedSimulation` relevant to the
monitor: the monitoring flag, the shared status store, the battery
configuration, and which callback slots are set. -/
structure SimState where
  is_monitoring : Bool
  current_battery_status : BatteryStatus
  last_battery_level : Int
  charging_spot_found : Bool
  charging_spot_position : Option Point
  battery_config : BatteryConfig
  battery_callback : Bool
  charging_callback : Bool
  status_callback : Bool
deriving DecidableEq

/-- `EnhancedSimulation.__init__`: thresholds come from the supplied config
dictionary with defaults 20 / 10 / 5 / 5.0; the status store starts as
{100, Normal, false, none}; no callbacks are set. -/
def initState (w c ch : Option Int) (ci : Option ℚ) : SimState :=
  { is_monitoring := false
    current_battery_status := BatteryStatus.normal
    last_battery_level := 100
    charging_spot_found := false
    charging_spot_position := none
    battery_config :=
      { warning_threshold := w.getD 20
        critical_threshold := c.getD 10
        charging_threshold := ch.getD 5
        check_interval := ci.getD 5 }
    battery_callback := false
    charging_callback := false
    status_callback := false }

/-- `set_callbacks`: record which callback slots are populated. -/
def set_callbacks (s : SimState) (b c st : Bool) : SimState :=
  { s with battery_callback := b, charging_callback := c, status_callback := st }

/-- The inline classification of `_process_battery_level`
(`enhanced_simulation.py` lines 165-172): threshold comparison from most
to least severe. -/
def classify_battery_level (cfg : BatteryConfig) (battery_level : Int) : BatteryStatus :=
  if battery_level ≤ cfg.charging_threshold then BatteryStatus.critical
  else if battery_level ≤ cfg.critical_threshold then BatteryStatus.critical
  else if battery_level ≤ cfg.warning_threshold then BatteryStatus.warning
  else BatteryStatus.normal

/-- Attempt loop of `safe_command` (`simulation.py` lines 19-26), iterating
attempts `attempt, attempt+1, ...` with `rem` attempts remaining.
`fails i = true` models attempt `i` raising `TelloException`. -/
def safeCommandGo (fails : Nat → Bool) : Nat → Nat → Bool
  | _, 0 => false
  | attempt, rem + 1 =>
    if fails attempt then safeCommandGo fails (attempt + 1) rem else true

/-- `safe_command` (`simulation.py` lines 18-28): run attempts `1..retries`,
returning `true` at the first attempt that does not raise, `false` after
the final failed attempt.  All failures are caught; the result is the
boolean alone. -/
def safe_command (fails : Nat → Bool) (retries : Nat) : Bool :=
  safeCommandGo fails 1 retries

/-- Per-marker body of the `for i, corner in enumerate(corners)` loop of
`_detect_aruco_markers`: store the centroid as the charging-spot position
and set the found flag. -/
def recordMarker (st : SimState) (m : Nat × List Point) : SimState :=
  { st with
      charging_spot_position := some (meanPoint m.2)
      charging_spot_found := true }

/-- Result of `_detect_aruco_markers`: updated state, whether markers were
found, and the writes performed. -/
structure DetectOut where
  state : SimState
  found : Bool
  events : List Ev
deriving DecidableEq

/-- `_detect_aruco_markers` (`enhanced_simulation.py` lines 241-264): if the
detector reports any marker (`ids is not None`), record each marker's
centroid into the shared charging-spot fields and return true; otherwise
return false.  Each loop iteration writes the position then the found
flag, with no lock acquisition. -/
def detect_aruco_markers (s : SimState) (frame : Frame) : DetectOut :=
  if frame.markers.isEmpty then
    { state := s, found := false, events := [] }
  else
    { state := frame.markers.foldl recordMarker s
      found := true
      events :=
        (frame.markers.map
          (fun _ => [Ev.write Fld.chargingSpotPosition, Ev.write Fld.chargingSpotFound])).flatten }

/-- The capabilities and frame source of the Tello instance as seen by the
search protocol.  `frames t` is the latest frame available at elapsed time
`t` (tenths of a second); `none` models "no frame yet". -/
structure TelloEnv where
  frames : Nat → Option Frame
  has_frame_read : Bool
  has_streamon : Bool
  has_move_forward : Bool
  has_rotate : Bool

/-- Result of `_approach_charging_spot`: updated state, success flag, the
elapsed time after the step, and the writes performed. -/
structure ApproachOut where
  state : SimState
  ok : Bool
  time : Nat
  events : List Ev
deriving DecidableEq

/-- `_approach_charging_spot` (`enhanced_simulation.py` lines 266-284):
issue one forward move and wait 2.0s (20 tenths) when the capability
exists, re-fetch a frame and re-run detection; success means a marker is
still detected on a present frame. -/
def approach_charging_spot (env : TelloEnv) (s : SimState) (t : Nat) : ApproachOut :=
  let t1 := if env.has_move_forward then t + 20 else t
  match env.frames t1 with
  | none => { state := s, ok := false, time := t1, events := [] }
  | some frame =>
    let d := detect_aruco_markers s frame
    { state := d.state, ok := d.found, time := t1, events := d.events }

/-- Result of the search loop / `_search_charging_spot`: updated state,
success flag, elapsed time on return, and the trace of events. -/
structure SearchOut where
  state : SimState
  ok : Bool
  time : Nat
  events : List Ev
deriving DecidableEq

/-- The `while time.time() - start_time < search_timeout` loop of
`_search_charging_spot` (`enhanced_simulation.py` lines 216-232), with
elapsed time `t` in tenths of a second.  A missing frame costs 0.1s; a
scan tick that does not succeed costs the approach settle (2.0s when the
move capability exists) plus the 1.0s rotation wait.  The structural fuel
only bounds the recursion: since every iteration advances `t` by at least
one tenth, fuel `timeout` is never exhausted before the time guard fails
(see `searchLoop_fuel_ge`). -/
def searchLoop (env : TelloEnv) (timeout : Nat) : Nat → SimState → Nat → SearchOut
  | 0, s, t => { state := s, ok := false, time := t, events := [] }
  | fuel + 1, s, t =>
    if t < timeout then
      match env.frames t with
      | none => searchLoop env timeout fuel s (t + 1)
      | some frame =>
        let d := detect_aruco_markers s frame
        if d.found then
          let a := approach_charging_spot env d.state t
          if a.ok then
            { state := a.state, ok := true, time := a.time, events := d.events ++ a.events }
          else
            let r := searchLoop env timeout fuel a.state (a.time + 10)
            { state := r.state, ok := r.ok, time := r.time
              events := d.events ++ a.events ++ r.events }
        else
          let r := searchLoop env timeout fuel d.state (t + 10)
          { state := r.state, ok := r.ok, time := r.time, events := d.events ++ r.events }
    else { state := s, ok := false, time := t, events := [] }

/-- `_search_charging_spot` (`enhanced_simulation.py` lines 201-239): fail
fast without the camera capability; otherwise run the timed scan loop from
elapsed time 0.  `searchStart` marks the invocation of the protocol. -/
def search_charging_spot (env : TelloEnv) (timeout : Nat) (s : SimState) : SearchOut :=
  if env.has_frame_read then
    let r := searchLoop env timeout timeout s 0
    { state := r.state, ok := r.ok, time := r.time, events := Ev.searchStart :: r.events }
  else
    { state := s, ok := false, time := 0, events := [Ev.searchStart] }

/-- `manual_charging_search` (`enhanced_simulation.py` lines 320-323):
directly invokes `_search_charging_spot` and returns its boolean. -/
def manual_charging_search (env : TelloEnv) (timeout : Nat) (s : SimState) : Bool :=
  (search_charging_spot env timeout s).ok

/-- `_handle_critical_battery` (`enhanced_simulation.py` lines 189-199):
invoke the charging callback when set, then run the search protocol. -/
def handle_critical_battery (env : TelloEnv) (timeout : Nat) (s : SimState) :
    SimState × List Ev :=
  let cbEvs := if s.charging_callback then [Ev.callback Cb.charging] else []
  let r := search_charging_spot env timeout s
  (r.state, cbEvs ++ r.events)

/-- `_process_battery_level` (`enhanced_simulation.py` lines 160-187): under
the lock, store the sample, classify it, and on a status transition record
the new status, fire the battery callback when set, and on a transition to
Critical run the critical handling (charging callback plus search) — all
before the lock is released at the end of the `with` block. -/
def process_battery_level (env : TelloEnv) (timeout : Nat) (s : SimState)
    (battery_level : Int) : SimState × List Ev :=
  let s1 := { s with last_battery_level := battery_level }
  let new_status := classify_battery_level s.battery_config battery_level
  if new_status ≠ s.current_battery_status then
    let s2 := { s1 with current_battery_status := new_status }
    let cbEvs := if s.battery_callback then [Ev.callback Cb.battery] else []
    if new_status = BatteryStatus.critical then
      let h := handle_critical_battery env timeout s2
      (h.1, [Ev.acquire, Ev.write Fld.lastBatteryLevel, Ev.write Fld.currentStatus]
              ++ cbEvs ++ h.2 ++ [Ev.release])
    else
      (s2, [Ev.acquire, Ev.write Fld.lastBatteryLevel, Ev.write Fld.currentStatus]
             ++ cbEvs ++ [Ev.release])
  else
    (s1, [Ev.acquire, Ev.write Fld.lastBatteryLevel, Ev.release])

/-- A sequence of valid battery samples processed by the monitor loop, with
the concatenated event trace. -/
def runPolls (env : TelloEnv) (timeout : Nat) (s : SimState) :
    List Int → SimState × List Ev
  | [] => (s, [])
  | l :: ls =>
    let p := process_battery_level env timeout s l
    let r := runPolls env timeout p.1 ls
    (r.1, p.2 ++ r.2)

/-- `_get_battery_level` (`enhanced_simulation.py` lines 144-158): `raw` is
the outcome of `self.tello.get_battery()` (`none` models a raised
exception or a missing capability); a value outside `[0, 100]` is rejected
as invalid.  The result `none` is a failed live read. -/
def get_battery_level (raw : Option Int) : Option Int :=
  match raw with
  | none => none
  | some battery => if 0 ≤ battery ∧ battery ≤ 100 then some battery else none

/-- The dictionary returned by `get_battery_info`. -/
structure BatteryInfo where
  current_level : Int
  status : BatteryStatus
  warning_threshold : Int
  critical_threshold : Int
  charging_threshold : Int
  is_low : Bool
  is_critical : Bool
deriving DecidableEq, Repr

/-- `get_battery_info` (`enhanced_simulation.py` lines 302-318): attempt a
live read; on failure fall back to the cached `last_battery_level`; derive
`is_low` / `is_critical` from the reported level and the current
thresholds. -/
def get_battery_info (s : SimState) (raw : Option Int) : BatteryInfo :=
  let battery_level := (get_battery_level raw).getD s.last_battery_level
  { current_level := battery_level
    status := s.current_battery_status
    warning_threshold := s.battery_config.warning_threshold
    critical_threshold := s.battery_config.critical_threshold
    charging_threshold := s.battery_config.charging_threshold
    is_low := decide (battery_level ≤ s.battery_config.warning_threshold)
    is_critical := decide (battery_level ≤ s.battery_config.critical_threshold) }

/-- `start_monitoring` (`enhanced_simulation.py` lines 108-122): if already
monitoring, return `False` without touching the state; otherwise set the
flag, spawn the monitor thread and return `True`.  The Python return value
is modelled in `Option Bool` (`some b` a boolean, `none` the value
`None`). -/
def start_monitoring (s : SimState) : SimState × Option Bool :=
  if s.is_monitoring then (s, some false)
  else ({ s with is_monitoring := true }, some true)

/-- `stop_monitoring` (`enhanced_simulation.py` lines 124-129): clear the
flag and join the thread.  The function body has no `return` statement, so
the Python return value is `None`. -/
def stop_monitoring (s : SimState) : SimState × Option Bool :=
  ({ s with is_monitoring := false }, none)

/-- A partial configuration dictionary as accepted by `update_config`:
`some v` models the key being present. -/
structure ConfigUpdate where
  warning_threshold : Option Int
  critical_threshold : Option Int
  charging_threshold : Option Int
  check_interval : Option ℚ
deriving DecidableEq

/-- `update_config` (`enhanced_simulation.py` lines 325-337): under the
lock, assign each supplied field into the battery configuration.  No
validation is performed. -/
def update_config (s : SimState) (u : ConfigUpdate) : SimState × List Ev :=
  let c0 := s.battery_config
  let c1 := match u.warning_threshold with
    | some w => { c0 with warning_threshold := w }
    | none => c0
  let c2 := match u.critical_threshold with
    | some c => { c1 with critical_threshold := c }
    | none => c1
  let c3 := match u.charging_threshold with
    | some ch => { c2 with charging_threshold := ch }
    | none => c2
  let c4 := match u.check_interval with
    | some ci => { c3 with check_interval := ci }
    | none => c3
  ({ s with battery_config := c4 },
   [Ev.acquire]
     ++ (match u.warning_threshold with
         | some _ => [Ev.write Fld.warningThreshold] | none => [])
     ++ (match u.critical_threshold with
         | some _ => [Ev.write Fld.criticalThreshold] | none => [])
     ++ (match u.charging_threshold with
         | some _ => [Ev.write Fld.chargingThreshold] | none => [])
     ++ (match u.check_interval with
         | some _ => [Ev.write Fld.checkInterval] | none => [])
     ++ [Ev.release])

/-- `reset_charging_spot_status` (`enhanced_simulation.py` lines 339-344):
under the lock, clear the charging-spot fields. -/
def reset_charging_spot_status (s : SimState) : SimState × List Ev :=
  ({ s with charging_spot_found := false, charging_spot_position := none },
   [Ev.acquire, Ev.write Fld.chargingSpotFound, Ev.write Fld.chargingSpotPosition,
    Ev.release])

/-- The operations an external caller or the monitor can apply to the
instance state. -/
inductive Op where
  | poll (battery_level : Int)
  | setCbs (b c st : Bool)
  | updateCfg (u : ConfigUpdate)
  | manualSearch
  | reset
  | startMon
  | stopMon

/-- Apply a single operation to the state (events and return values
dropped). -/
def applyOp (env : TelloEnv) (timeout : Nat) (s : SimState) : Op → SimState
  | Op.poll l => (process_battery_level env timeout s l).1
  | Op.setCbs b c st => set_callbacks s b c st
  | Op.updateCfg u => (update_config s u).1
  | Op.manualSearch => (search_charging_spot env timeout s).state
  | Op.reset => (reset_charging_spot_status s).1
  | Op.startMon => (start_monitoring s).1
  | Op.stopMon => (stop_monitoring s).1

/-- Apply a sequence of operations from a starting state. -/
def runOps (env : TelloEnv) (timeout : Nat) (s : SimState) : List Op → SimState
  | [] => s
  | op :: ops => runOps env timeout (applyOp env timeout s op) ops

/-- Number of status transitions along a classification trace, starting
from a previous status. -/
def countTransitions : BatteryStatus → List BatteryStatus → Nat
  | _, [] => 0
  | prev, st :: rest =>
    (if st = prev then 0 else 1) + countTransitions st rest

/-- Number of transitions into the Critical status along a classification
trace. -/
def countCriticalEntries : BatteryStatus → List BatteryStatus → Nat
  | _, [] => 0
  | prev, st :: rest =>
    (if st ≠ prev ∧ st = BatteryStatus.critical then 1 else 0) + countCriticalEntries st rest

/-- An environment whose frame source never yields a frame. -/
def envNoFrames : TelloEnv :=
  { frames := fun _ => none
    has_frame_read := true
    has_streamon := true
    has_move_forward := true
    has_rotate := true }

/-- A frame containing a single detected marker with id 1. -/
def frame1 : Frame :=
  { markers := [(1, [((0 : ℚ), (0 : ℚ)), (2, 0), (2, 2), (0, 2)])] }

/-- A frame source that reports a marker at time 0 and again at time 20
(after the forward move settles), and nothing otherwise. -/
def envMarkerTwice : TelloEnv :=
  { frames := fun t => if t = 0 ∨ t = 20 then some frame1 else none
    has_frame_read := true
    has_streamon := true
    has_move_forward := true
    has_rotate := true }

/-- A frame source that reports a marker at time 0 only: the approach
re-detection fails. -/
def envMarkerOnce : TelloEnv :=
  { frames := fun t => if t = 0 then some frame1 else none
    has_frame_read := true
    has_streamon := true
    has_move_forward := true
    has_rotate := true }

/-- The default instance state (no config dictionary supplied). -/
def defaultState : SimState := initState none none none none

/-- A partial config update lowering the warning threshold below the
critical threshold. -/
def badUpdate : ConfigUpdate :=
  { warning_threshold := some 5
    critical_threshold := none
    charging_threshold := none
    check_interval := none }

/-- The default battery configuration {20, 10, 5, 5.0}. -/
def defaultBatteryConfig : BatteryConfig :=
  { warning_threshold := 20
    critical_threshold := 10
    charging_threshold := 5
    check_interval := 5 }

theorem safeCommandGo_true_iff (fails : Nat → Bool) :
    ∀ (rem a : Nat), safeCommandGo fails a rem = true ↔ ∃ k, k < rem ∧ fails (a + k) = false := by
  intro rem
  induction rem with
  | zero => intro a; simp [safeCommandGo]
  | succ rem ih =>
    intro a
    simp only [safeCommandGo]
    by_cases hf : fails a = true
    · rw [if_pos hf, ih (a + 1)]
      constructor
      · rintro ⟨k, hk, hfk⟩
        refine ⟨k + 1, by omega, ?_⟩
        have he : a + (k + 1) = a + 1 + k := by omega
        rw [he]; exact hfk
      · rintro ⟨k, hk, hfk⟩
        cases k with
        | zero =>
          rw [Nat.add_zero] at hfk
          rw [hfk] at hf
          simp at hf
        | succ k =>
          refine ⟨k, by omega, ?_⟩
          have he : a + 1 + k = a + (k + 1) := by omega
          rw [he]; exact hfk
    · rw [if_neg hf]
      simp only [true_iff]
      simp only [Bool.not_eq_true] at hf
      exact ⟨0, by omega, by rw [Nat.add_zero]; exact hf⟩

theorem classify_ne_charging (cfg : BatteryConfig) (p : Int) :
    classify_battery_level cfg p ≠ BatteryStatus.charging := by
  unfold classify_battery_level
  split <;> [skip; split <;> [skip; split]] <;> simp

theorem recordMarker_foldl_pres (l : List (Nat × List Point)) :
    ∀ s : SimState,
      (l.foldl recordMarker s).current_battery_status = s.current_battery_status
      ∧ (l.foldl recordMarker s).battery_config = s.battery_config
      ∧ (l.foldl recordMarker s).battery_callback = s.battery_callback := by
  induction l with
  | nil => intro s; exact ⟨rfl, rfl, rfl⟩
  | cons m l ih =>
    intro s
    simpa [List.foldl_cons, recordMarker] using ih (recordMarker s m)

theorem detect_pres (s : SimState) (f : Frame) :
    (detect_aruco_markers s f).state.current_battery_status = s.current_battery_status
    ∧ (detect_aruco_markers s f).state.battery_config = s.battery_config
    ∧ (detect_aruco_markers s f).state.battery_callback = s.battery_callback := by
  unfold detect_aruco_markers
  split
  · exact ⟨rfl, rfl, rfl⟩
  · exact recordMarker_foldl_pres f.markers s

theorem approach_pres (env : TelloEnv) (s : SimState) (t : Nat) :
    (approach_charging_spot env s t).state.current_battery_status = s.current_battery_status
    ∧ (approach_charging_spot env s t).state.battery_config = s.battery_config
    ∧ (approach_charging_spot env s t).state.battery_callback = s.battery_callback := by
  unfold approach_charging_spot
  cases h : env.frames (if env.has_move_forward then t + 20 else t) with
  | none => simp [h]
  | some f =>
    have hd := detect_pres s f
    simp only [h]
    exact ⟨hd.1, hd.2.1, hd.2.2⟩

theorem searchLoop_pres (env : TelloEnv) (timeout : Nat) :
    ∀ (fuel : Nat) (s : SimState) (t : Nat),
      (searchLoop env timeout fuel s t).state.current_battery_status = s.current_battery_status
      ∧ (searchLoop env timeout fuel s t).state.battery_config = s.battery_config
      ∧ (searchLoop env timeout fuel s t).state.battery_callback = s.battery_callback := by
  intro fuel
  induction fuel with
  | zero => intro s t; exact ⟨rfl, rfl, rfl⟩
  | succ fuel ih =>
    intro s t
    simp only [searchLoop]
    by_cases hlt : t < timeout
    · rw [if_pos hlt]
      cases hf : env.frames t with
      | none => simp only [hf]; exact ih s (t + 1)
      | some frame =>
        simp only [hf]
        by_cases hfound : (detect_aruco_markers s frame).found = true
        · rw [if_pos hfound]
          by_cases hok :
              (approach_charging_spot env (detect_aruco_markers s frame).state t).ok = true
          · rw [if_pos hok]
            have h2 := approach_pres env (detect_aruco_markers s frame).state t
            have h3 := detect_pres s frame
            exact ⟨h2.1.trans h3.1, h2.2.1.trans h3.2.1, h2.2.2.trans h3.2.2⟩
          · rw [if_neg hok]
            have h1 := ih (approach_charging_spot env (detect_aruco_markers s frame).state t).state
              ((approach_charging_spot env (detect_aruco_markers s frame).state t).time + 10)
            have h2 := approach_pres env (detect_aruco_markers s frame).state t
            have h3 := detect_pres s frame
            exact ⟨h1.1.trans (h2.1.trans h3.1), h1.2.1.trans (h2.2.1.trans h3.2.1),
              h1.2.2.trans (h2.2.2.trans h3.2.2)⟩
        · rw [if_neg hfound]
          have h1 := ih (detect_aruco_markers s frame).state (t + 10)
          have h3 := detect_pres s frame
          exact ⟨h1.1.trans h3.1, h1.2.1.trans h3.2.1, h1.2.2.trans h3.2.2⟩
    · rw [if_neg hlt]
      exact ⟨rfl, rfl, rfl⟩

theorem search_pres (env : TelloEnv) (timeout : Nat) (s : SimState) :
    (search_charging_spot env timeout s).state.current_battery_status = s.current_battery_status
    ∧ (search_charging_spot env timeout s).state.battery_config = s.battery_config
    ∧ (search_charging_spot env timeout s).state.battery_callback = s.battery_callback := by
  unfold search_charging_spot
  split
  · simpa using searchLoop_pres env timeout timeout s 0
  · exact ⟨rfl, rfl, rfl⟩

theorem detect_events_spot (s : SimState) (f : Frame) :
    ∀ e ∈ (detect_aruco_markers s f).events,
      e = Ev.write Fld.chargingSpotPosition ∨ e = Ev.write Fld.chargingSpotFound := by
  unfold detect_aruco_markers
  split
  · intro e he; simp at he
  · intro e he
    simp only [List.mem_flatten, List.mem_map] at he
    obtain ⟨l, ⟨m, _, hl⟩, hel⟩ := he
    rw [← hl] at hel
    simpa using hel

theorem approach_events_spot (env : TelloEnv) (s : SimState) (t : Nat) :
    ∀ e ∈ (approach_charging_spot env s t).events,
      e = Ev.write Fld.chargingSpotPosition ∨ e = Ev.write Fld.chargingSpotFound := by
  unfold approach_charging_spot
  cases h : env.frames (if env.has_move_forward then t + 20 else t) with
  | none => intro e he; simp [h] at he
  | some f =>
    intro e he
    simp only [h] at he
    exact detect_events_spot s f e he

theorem searchLoop_events_spot (env : TelloEnv) (timeout : Nat) :
    ∀ (fuel : Nat) (s : SimState) (t : Nat),
      ∀ e ∈ (searchLoop env timeout fuel s t).events,
        e = Ev.write Fld.chargingSpotPosition ∨ e = Ev.write Fld.chargingSpotFound := by
  intro fuel
  induction fuel with
  | zero => intro s t e he; simp [searchLoop] at he
  | succ fuel ih =>
    intro s t
    simp only [searchLoop]
    by_cases hlt : t < timeout
    · rw [if_pos hlt]
      cases hf : env.frames t with
      | none => simp only [hf]; exact ih s (t + 1)
      | some frame =>
        simp only [hf]
        by_cases hfound : (detect_aruco_markers s frame).found = true
        · rw [if_pos hfound]
          by_cases hok :
              (approach_charging_spot env (detect_aruco_markers s frame).state t).ok = true
          · rw [if_pos hok]
            intro e he
            simp only [List.mem_append] at he
            rcases he with he | he
            · exact detect_events_spot s frame e he
            · exact approach_events_spot env (detect_aruco_markers s frame).state t e he
          · rw [if_neg hok]
            intro e he
            simp only [List.mem_append] at he
            rcases he with (he | he) | he
            · exact detect_events_spot s frame e he
            · exact approach_events_spot env (detect_aruco_markers s frame).state t e he
            · exact ih _ _ e he
        · rw [if_neg hfound]
          intro e he
          simp only [List.mem_append] at he
          rcases he with he | he
          · exact detect_events_spot s frame e he
          · exact ih _ _ e he
    · rw [if_neg hlt]
      intro e he; simp at he

theorem search_events_shape (env : TelloEnv) (timeout : Nat) (s : SimState) :
    ∃ ws, (search_charging_spot env timeout s).events = Ev.searchStart :: ws
      ∧ ∀ e ∈ ws,
          e = Ev.write Fld.chargingSpotPosition ∨ e = Ev.write Fld.chargingSpotFound := by
  unfold search_charging_spot
  split
  · exact ⟨(searchLoop env timeout timeout s 0).events, rfl,
      searchLoop_events_spot env timeout timeout s 0⟩
  · exact ⟨[], rfl, by intro e he; simp at he⟩

theorem searchLoop_time_le (env : TelloEnv) (timeout : Nat) :
    ∀ (fuel : Nat) (s : SimState) (t : Nat),
      (searchLoop env timeout fuel s t).time ≤ max t (timeout + 29) := by
  intro fuel
  induction fuel with
  | zero => intro s t; simp [searchLoop]
  | succ fuel ih =>
    intro s t
    simp only [searchLoop]
    by_cases hlt : t < timeout
    · rw [if_pos hlt]
      cases hf : env.frames t with
      | none =>
        simp only [hf]
        have h1 := ih s (t + 1)
        have h2 : max (t + 1) (timeout + 29) = timeout + 29 := by omega
        rw [h2] at h1
        exact h1.trans (by omega)
      | some frame =>
        simp only [hf]
        have htime : ∀ s' : SimState,
            (approach_charging_spot env s' t).time ≤ t + 20 := by
          intro s'
          unfold approach_charging_spot
          cases hfr : env.frames (if env.has_move_forward then t + 20 else t) with
          | none => simp only [hfr]; split <;> omega
          | some f => simp only [hfr]; split <;> omega
        by_cases hfound : (detect_aruco_markers s frame).found = true
        · rw [if_pos hfound]
          by_cases hok :
              (approach_charging_spot env (detect_aruco_markers s frame).state t).ok = true
          · rw [if_pos hok]
            have := htime (detect_aruco_markers s frame).state
            simp only
            omega
          · rw [if_neg hok]
            have h1 := ih (approach_charging_spot env (detect_aruco_markers s frame).state t).state
              ((approach_charging_spot env (detect_aruco_markers s frame).state t).time + 10)
            have h2 := htime (detect_aruco_markers s frame).state
            have h3 : max ((approach_charging_spot env
                (detect_aruco_markers s frame).state t).time + 10) (timeout + 29)
                = timeout + 29 := by omega
            rw [h3] at h1
            exact h1.trans (by omega)
        · rw [if_neg hfound]
          have h1 := ih (detect_aruco_markers s frame).state (t + 10)
          have h2 : max (t + 10) (timeout + 29) = timeout + 29 := by omega
          rw [h2] at h1
          exact h1.trans (by omega)
    · rw [if_neg hlt]
      simp

theorem spot_count_zero (ws : List Ev)
    (h : ∀ e ∈ ws,
      e = Ev.write Fld.chargingSpotPosition ∨ e = Ev.write Fld.chargingSpotFound) :
    ws.count (Ev.callback Cb.battery) = 0 ∧ ws.count Ev.searchStart = 0 := by
  constructor <;>
    · rw [List.count_eq_zero]
      intro hmem
      rcases h _ hmem with h' | h' <;> simp at h'

theorem search_count (env : TelloEnv) (timeout : Nat) (s : SimState) :
    (search_charging_spot env timeout s).events.count Ev.searchStart = 1
    ∧ (search_charging_spot env timeout s).events.count (Ev.callback Cb.battery) = 0 := by
  obtain ⟨ws, hws, hmem⟩ := search_events_shape env timeout s
  have hc := spot_count_zero ws hmem
  rw [hws]
  constructor <;> simp [List.count_cons, hc.1, hc.2]

theorem handle_count (env : TelloEnv) (timeout : Nat) (s : SimState) :
    (handle_critical_battery env timeout s).2.count Ev.searchStart = 1
    ∧ (handle_critical_battery env timeout s).2.count (Ev.callback Cb.battery) = 0 := by
  unfold handle_critical_battery
  have hs := search_count env timeout s
  simp only [List.count_append]
  constructor <;> split <;> simp [hs.1, hs.2, List.count_cons]

theorem handle_pres (env : TelloEnv) (timeout : Nat) (s : SimState) :
    (handle_critical_battery env timeout s).1.current_battery_status = s.current_battery_status
    ∧ (handle_critical_battery env timeout s).1.battery_config = s.battery_config
    ∧ (handle_critical_battery env timeout s).1.battery_callback = s.battery_callback := by
  unfold handle_critical_battery
  exact search_pres env timeout s

theorem handle_events_mem (env : TelloEnv) (timeout : Nat) (s : SimState) :
    ∀ e ∈ (handle_critical_battery env timeout s).2,
      e ≠ Ev.acquire ∧ e ≠ Ev.release := by
  unfold handle_critical_battery
  intro e he
  obtain ⟨ws, hws, hmem⟩ := search_events_shape env timeout s
  simp only [List.mem_append] at he
  rcases he with he | he
  · split at he <;> simp at he
    simp [he]
  · rw [hws] at he
    rcases List.mem_cons.mp he with rfl | he
    · exact ⟨by simp, by simp⟩
    · rcases hmem e he with rfl | rfl <;> exact ⟨by simp, by simp⟩

theorem searchLoop_noframes_false (env : TelloEnv) (timeout : Nat)
    (hnf : ∀ t', env.frames t' = none) :
    ∀ (fuel : Nat) (s : SimState) (t : Nat),
      (searchLoop env timeout fuel s t).ok = false := by
  intro fuel
  induction fuel with
  | zero => intro s t; rfl
  | succ fuel ih =>
    intro s t
    simp only [searchLoop]
    by_cases hlt : t < timeout
    · rw [if_pos hlt]
      simp only [hnf t]
      exact ih s (t + 1)
    · rw [if_neg hlt]

theorem process_state (env : TelloEnv) (timeout : Nat) (s : SimState) (l : Int) :
    (process_battery_level env timeout s l).1.current_battery_status
      = classify_battery_level s.battery_config l
    ∧ (process_battery_level env timeout s l).1.battery_config = s.battery_config
    ∧ (process_battery_level env timeout s l).1.battery_callback = s.battery_callback := by
  unfold process_battery_level
  by_cases hne : classify_battery_level s.battery_config l ≠ s.current_battery_status
  · rw [if_pos hne]
    by_cases hcrit : classify_battery_level s.battery_config l = BatteryStatus.critical
    · rw [if_pos hcrit]
      have hp := handle_pres env timeout
        { s with last_battery_level := l,
                 current_battery_status := classify_battery_level s.battery_config l }
      exact ⟨hp.1, hp.2.1, hp.2.2⟩
    · rw [if_neg hcrit]
      exact ⟨rfl, rfl, rfl⟩
  · rw [if_neg hne]
    push_neg at hne
    exact ⟨hne.symm, rfl, rfl⟩

theorem process_count_battery (env : TelloEnv) (timeout : Nat) (s : SimState) (l : Int) :
    (process_battery_level env timeout s l).2.count (Ev.callback Cb.battery)
      = if classify_battery_level s.battery_config l ≠ s.current_battery_status
           ∧ s.battery_callback = true
        then 1 else 0 := by
  unfold process_battery_level
  by_cases hne : classify_battery_level s.battery_config l ≠ s.current_battery_status
  · rw [if_pos hne]
    by_cases hcrit : classify_battery_level s.battery_config l = BatteryStatus.critical
    · rw [if_pos hcrit]
      have hh := (handle_count env timeout
        { s with last_battery_level := l,
                 current_battery_status := classify_battery_level s.battery_config l }).2
      simp only [List.count_append, List.count_cons, List.count_nil]
      rw [hh]
      by_cases hcb : s.battery_callback = true
      · simp [hcb, hne]
      · simp only [Bool.not_eq_true] at hcb
        simp [hcb, hne]
    · rw [if_neg hcrit]
      simp only [List.count_append, List.count_cons, List.count_nil]
      by_cases hcb : s.battery_callback = true
      · simp [hcb, hne]
      · simp only [Bool.not_eq_true] at hcb
        simp [hcb, hne]
  · rw [if_neg hne]
    push_neg at hne
    simp [List.count_cons, hne]

theorem process_count_search (env : TelloEnv) (timeout : Nat) (s : SimState) (l : Int) :
    (process_battery_level env timeout s l).2.count Ev.searchStart
      = if classify_battery_level s.battery_config l ≠ s.current_battery_status
           ∧ classify_battery_level s.battery_config l = BatteryStatus.critical
        then 1 else 0 := by
  unfold process_battery_level
  by_cases hne : classify_battery_level s.battery_config l ≠ s.current_battery_status
  · rw [if_pos hne]
    by_cases hcrit : classify_battery_level s.battery_config l = BatteryStatus.critical
    · rw [if_pos hcrit]
      have hh := (handle_count env timeout
        { s with last_battery_level := l,
                 current_battery_status := classify_battery_level s.battery_config l }).1
      simp only [List.count_append, List.count_cons, List.count_nil]
      rw [hh]
      rw [hcrit] at hne
      by_cases hcb : s.battery_callback = true
      · simp [hcb, hne, hcrit]
      · simp only [Bool.not_eq_true] at hcb
        simp [hcb, hne, hcrit]
    · rw [if_neg hcrit]
      simp only [List.count_append, List.count_cons, List.count_nil]
      by_cases hcb : s.battery_callback = true
      · simp [hcb, hne, hcrit]
      · simp only [Bool.not_eq_true] at hcb
        simp [hcb, hne, hcrit]
  · rw [if_neg hne]
    push_neg at hne
    simp [List.count_cons, hne]

theorem process_events_shape (env : TelloEnv) (timeout : Nat) (s : SimState) (l : Int) :
    ∃ mid, (process_battery_level env timeout s l).2 = Ev.acquire :: mid ++ [Ev.release]
      ∧ ∀ e ∈ mid, e ≠ Ev.acquire ∧ e ≠ Ev.release := by
  unfold process_battery_level
  by_cases hne : classify_battery_level s.battery_config l ≠ s.current_battery_status
  · rw [if_pos hne]
    by_cases hcrit : classify_battery_level s.battery_config l = BatteryStatus.critical
    · rw [if_pos hcrit]
      refine ⟨[Ev.write Fld.lastBatteryLevel, Ev.write Fld.currentStatus]
          ++ (if s.battery_callback then [Ev.callback Cb.battery] else [])
          ++ (handle_critical_battery env timeout
              { s with last_battery_level := l,
                       current_battery_status := classify_battery_level s.battery_config l }).2,
        by simp, ?_⟩
      intro e he
      simp only [List.mem_append, List.mem_cons, List.mem_singleton,
        List.not_mem_nil, or_false] at he
      rcases he with ((rfl | rfl) | he) | he
      · exact ⟨by decide, by decide⟩
      · exact ⟨by decide, by decide⟩
      · split at he
        · rw [List.mem_singleton] at he
          subst he
          exact ⟨by decide, by decide⟩
        · simp at he
      · exact handle_events_mem env timeout _ e he
    · rw [if_neg hcrit]
      refine ⟨[Ev.write Fld.lastBatteryLevel, Ev.write Fld.currentStatus]
          ++ (if s.battery_callback then [Ev.callback Cb.battery] else []), by simp, ?_⟩
      intro e he
      simp only [List.mem_append, List.mem_cons, List.mem_singleton,
        List.not_mem_nil, or_false] at he
      rcases he with (rfl | rfl) | he
      · exact ⟨by decide, by decide⟩
      · exact ⟨by decide, by decide⟩
      · split at he
        · rw [List.mem_singleton] at he
          subst he
          exact ⟨by decide, by decide⟩
        · simp at he
  · rw [if_neg hne]
    refine ⟨[Ev.write Fld.lastBatteryLevel], by simp, ?_⟩
    intro e he
    rw [List.mem_singleton] at he
    subst he
    exact ⟨by decide, by decide⟩

theorem annot_noLock :
    ∀ (evs : List Ev) (n : Nat),
      (∀ e ∈ evs, e ≠ Ev.acquire ∧ e ≠ Ev.release) →
      annot n evs = evs.map (fun e => (e, n)) := by
  intro evs
  induction evs with
  | nil => intro n _; rfl
  | cons e r ih =>
    intro n h
    have he := h e (by simp)
    have hr : ∀ x ∈ r, x ≠ Ev.acquire ∧ x ≠ Ev.release := fun x hx => h x (by simp [hx])
    cases e with
    | acquire => exact absurd rfl he.1
    | release => exact absurd rfl he.2
    | write f =>
      show (Ev.write f, n) :: annot n r = (Ev.write f, n) :: r.map (fun e => (e, n))
      rw [ih n hr]
    | callback c =>
      show (Ev.callback c, n) :: annot n r = (Ev.callback c, n) :: r.map (fun e => (e, n))
      rw [ih n hr]
    | searchStart =>
      show (Ev.searchStart, n) :: annot n r = (Ev.searchStart, n) :: r.map (fun e => (e, n))
      rw [ih n hr]

theorem annot_append_noLock :
    ∀ (xs : List Ev) (n : Nat) (ys : List Ev),
      (∀ e ∈ xs, e ≠ Ev.acquire ∧ e ≠ Ev.release) →
      annot n (xs ++ ys) = xs.map (fun e => (e, n)) ++ annot n ys := by
  intro xs
  induction xs with
  | nil => intro n ys _; rfl
  | cons e r ih =>
    intro n ys h
    have he := h e (by simp)
    have hr : ∀ x ∈ r, x ≠ Ev.acquire ∧ x ≠ Ev.release := fun x hx => h x (by simp [hx])
    cases e with
    | acquire => exact absurd rfl he.1
    | release => exact absurd rfl he.2
    | write f =>
      show (Ev.write f, n) :: annot n (r ++ ys)
        = (Ev.write f, n) :: (r.map (fun e => (e, n)) ++ annot n ys)
      rw [ih n ys hr]
    | callback c =>
      show (Ev.callback c, n) :: annot n (r ++ ys)
        = (Ev.callback c, n) :: (r.map (fun e => (e, n)) ++ annot n ys)
      rw [ih n ys hr]
    | searchStart =>
      show (Ev.searchStart, n) :: annot n (r ++ ys)
        = (Ev.searchStart, n) :: (r.map (fun e => (e, n)) ++ annot n ys)
      rw [ih n ys hr]

theorem annot_guarded_shape (mid : List Ev)
    (hm : ∀ e ∈ mid, e ≠ Ev.acquire ∧ e ≠ Ev.release) :
    annot 0 (Ev.acquire :: mid ++ [Ev.release])
      = (Ev.acquire, 0) :: mid.map (fun e => (e, 1)) ++ [(Ev.release, 0)] := by
  show (Ev.acquire, 0) :: annot 1 (mid ++ [Ev.release]) = _
  rw [annot_append_noLock mid 1 [Ev.release] hm]
  rfl

theorem mem_annot_guarded (mid : List Ev)
    (hm : ∀ e ∈ mid, e ≠ Ev.acquire ∧ e ≠ Ev.release)
    (e : Ev) (d : Nat)
    (hmem : (e, d) ∈ annot 0 (Ev.acquire :: mid ++ [Ev.release])) :
    (e = Ev.acquire ∧ d = 0) ∨ (e = Ev.release ∧ d = 0) ∨ (e ∈ mid ∧ d = 1) := by
  rw [annot_guarded_shape mid hm] at hmem
  rcases List.mem_cons.mp hmem with h | h
  · left
    have h1 := congrArg Prod.fst h
    have h2 := congrArg Prod.snd h
    exact ⟨h1, h2⟩
  · rcases List.mem_append.mp h with h | h
    · obtain ⟨x, hx, hxe⟩ := List.mem_map.mp h
      right; right
      have h1 := congrArg Prod.fst hxe
      have h2 := congrArg Prod.snd hxe
      simp only at h1 h2
      rw [← h1]
      exact ⟨hx, h2.symm⟩
    · right; left
      rw [List.mem_singleton] at h
      have h1 := congrArg Prod.fst h
      have h2 := congrArg Prod.snd h
      exact ⟨h1, h2⟩

theorem update_events_shape (s : SimState) (u : ConfigUpdate) :
    ∃ mid, (update_config s u).2 = Ev.acquire :: mid ++ [Ev.release]
      ∧ ∀ e ∈ mid, e ≠ Ev.acquire ∧ e ≠ Ev.release := by
  obtain ⟨w, c, ch, ci⟩ := u
  refine ⟨(match w with
        | some _ => [Ev.write Fld.warningThreshold] | none => [])
      ++ (match c with
        | some _ => [Ev.write Fld.criticalThreshold] | none => [])
      ++ (match ch with
        | some _ => [Ev.write Fld.chargingThreshold] | none => [])
      ++ (match ci with
        | some _ => [Ev.write Fld.checkInterval] | none => []), ?_, ?_⟩
  · unfold update_config
    cases w <;> cases c <;> cases ch <;> cases ci <;> simp
  · intro e he
    simp only [List.mem_append] at he
    rcases he with ((he | he) | he) | he <;>
      [cases w; cases c; cases ch; cases ci] <;>
      simp only [List.mem_singleton, List.not_mem_nil] at he <;>
      (subst he; exact ⟨by decide, by decide⟩)

theorem runPolls_count (env : TelloEnv) (timeout : Nat) :
    ∀ (levels : List Int) (s : SimState),
      (runPolls env timeout s levels).2.count (Ev.callback Cb.battery)
        = (if s.battery_callback = true
           then countTransitions s.current_battery_status
                  (levels.map (classify_battery_level s.battery_config))
           else 0)
      ∧ (runPolls env timeout s levels).2.count Ev.searchStart
        = countCriticalEntries s.current_battery_status
            (levels.map (classify_battery_level s.battery_config)) := by
  intro levels
  induction levels with
  | nil =>
    intro s
    by_cases hcb : s.battery_callback = true <;>
      simp [runPolls, countTransitions, countCriticalEntries, hcb]
  | cons l ls ih =>
    intro s
    have hst := process_state env timeout s l
    have h1 := process_count_battery env timeout s l
    have h3 := process_count_search env timeout s l
    have ihr := ih (process_battery_level env timeout s l).1
    rw [hst.1, hst.2.1, hst.2.2] at ihr
    constructor
    · simp only [runPolls, List.count_append, List.map_cons, countTransitions]
      rw [h1, ihr.1]
      by_cases hcb : s.battery_callback = true
      · by_cases heq : classify_battery_level s.battery_config l = s.current_battery_status
        · simp [hcb, heq]
        · simp [hcb, heq]
      · simp [hcb]
    · simp only [runPolls, List.count_append, List.map_cons, countCriticalEntries]
      rw [h3, ihr.2]

theorem update_config_status (s : SimState) (u : ConfigUpdate) :
    (update_config s u).1.current_battery_status = s.current_battery_status := by
  unfold update_config
  rfl

theorem applyOp_ne_charging (env : TelloEnv) (timeout : Nat) (s : SimState) (op : Op)
    (h : s.current_battery_status ≠ BatteryStatus.charging) :
    (applyOp env timeout s op).current_battery_status ≠ BatteryStatus.charging := by
  cases op with
  | poll l =>
    show (process_battery_level env timeout s l).1.current_battery_status ≠ _
    rw [(process_state env timeout s l).1]
    exact classify_ne_charging s.battery_config l
  | setCbs b c st => exact h
  | updateCfg u =>
    show (update_config s u).1.current_battery_status ≠ _
    rw [update_config_status]
    exact h
  | manualSearch =>
    show (search_charging_spot env timeout s).state.current_battery_status ≠ _
    rw [(search_pres env timeout s).1]
    exact h
  | reset => exact h
  | startMon =>
    show (start_monitoring s).1.current_battery_status ≠ _
    unfold start_monitoring
    split <;> exact h
  | stopMon => exact h

theorem runOps_ne_charging (env : TelloEnv) (timeout : Nat) :
    ∀ (ops : List Op) (s : SimState),
      s.current_battery_status ≠ BatteryStatus.charging →
      (runOps env timeout s ops).current_battery_status ≠ BatteryStatus.charging := by
  intro ops
  induction ops with
  | nil => intro s h; exact h
  | cons op ops ih =>
    intro s h
    exact ih (applyOp env timeout s op) (applyOp_ne_charging env timeout s op h)

theorem approach_time_ge (env : TelloEnv) (s : SimState) (t : Nat) :
    t ≤ (approach_charging_spot env s t).time := by
  unfold approach_charging_spot
  cases hf : env.frames (if env.has_move_forward then t + 20 else t) with
  | none => simp only [hf]; split <;> omega
  | some f => simp only [hf]; split <;> omega

theorem searchLoop_fuel_ge (env : TelloEnv) (timeout : Nat) :
    ∀ (fuel : Nat) (s : SimState) (t : Nat), timeout ≤ t + fuel →
      searchLoop env timeout (fuel + 1) s t = searchLoop env timeout fuel s t := by
  intro fuel
  induction fuel with
  | zero =>
    intro s t h
    simp only [searchLoop]
    rw [if_neg (by omega)]
  | succ fuel ih =>
    intro s t h
    rw [searchLoop.eq_2 env timeout s t (fuel + 1), searchLoop.eq_2 env timeout s t fuel]
    by_cases hlt : t < timeout
    · rw [if_pos hlt, if_pos hlt]
      cases hf : env.frames t with
      | none =>
        simp only [hf]
        exact ih s (t + 1) (by omega)
      | some frame =>
        simp only [hf]
        by_cases hfound : (detect_aruco_markers s frame).found = true
        · rw [if_pos hfound, if_pos hfound]
          by_cases hok :
              (approach_charging_spot env (detect_aruco_markers s frame).state t).ok = true
          · rw [if_pos hok, if_pos hok]
          · rw [if_neg hok, if_neg hok]
            have hge := approach_time_ge env (detect_aruco_markers s frame).state t
            rw [ih (approach_charging_spot env (detect_aruco_markers s frame).state t).state
              ((approach_charging_spot env (detect_aruco_markers s frame).state t).time + 10)
              (by omega)]
        · rw [if_neg hfound, if_neg hfound]
          rw [ih (detect_aruco_markers s frame).state (t + 10) (by omega)]
    · rw [if_neg hlt, if_neg hlt]

theorem detect_found_iff (s : SimState) (f : Frame) :
    (detect_aruco_markers s f).found = true ↔ f.markers ≠ [] := by
  unfold detect_aruco_markers
  by_cases h : f.markers.isEmpty = true
  · rw [if_pos h]
    simp only [List.isEmpty_iff] at h
    simp [h]
  · rw [if_neg h]
    simp only [List.isEmpty_iff] at h
    simp [h]

theorem approach_ok_iff (env : TelloEnv) (s : SimState) (t : Nat)
    (hmv : env.has_move_forward = true) :
    (approach_charging_spot env s t).ok = true
      ↔ ∃ g, env.frames (t + 20) = some g ∧ g.markers ≠ [] := by
  unfold approach_charging_spot
  rw [if_pos hmv]
  cases hf : env.frames (t + 20) with
  | none => simp [hf]
  | some g => simp [hf, detect_found_iff]

theorem approach_time_eq (env : TelloEnv) (s : SimState) (t : Nat)
    (hmv : env.has_move_forward = true) :
    (approach_charging_spot env s t).time = t + 20 := by
  unfold approach_charging_spot
  rw [if_pos hmv]
  cases hf : env.frames (t + 20) with
  | none => simp [hf]
  | some g => simp [hf]

/-- Claim C1: for every battery percentage p in [0, 100] and every threshold
configuration, classification is a pure function of p and the three
thresholds, with precedence charging, critical, warning, else normal; in
particular with thresholds {20, 10, 5} the sequence [25, 18, 9, 3]
classifies to [Normal, Warning, Critical, Critical]. -/
theorem claim_C1 (cfg : BatteryConfig) (p : Int) (h0 : 0 ≤ p) (h100 : p ≤ 100) :
    ((p ≤ cfg.charging_threshold → classify_battery_level cfg p = BatteryStatus.critical)
    ∧ (cfg.charging_threshold < p → p ≤ cfg.critical_threshold →
        classify_battery_level cfg p = BatteryStatus.critical)
    ∧ (cfg.charging_threshold < p → cfg.critical_threshold < p →
        p ≤ cfg.warning_threshold →
        classify_battery_level cfg p = BatteryStatus.warning)
    ∧ (cfg.charging_threshold < p → cfg.critical_threshold < p →
        cfg.warning_threshold < p →
        classify_battery_level cfg p = BatteryStatus.normal))
    ∧ [25, 18, 9, 3].map (classify_battery_level defaultBatteryConfig)
      = [BatteryStatus.normal, BatteryStatus.warning, BatteryStatus.critical,
         BatteryStatus.critical] := by
  constructor
  · unfold classify_battery_level
    refine ⟨fun hch => ?_, fun h1 h2 => ?_, fun h1 h2 h3 => ?_, fun h1 h2 h3 => ?_⟩
    · rw [if_pos hch]
    · rw [if_neg (by omega), if_pos h2]
    · rw [if_neg (by omega), if_neg (by omega), if_pos h3]
    · rw [if_neg (by omega), if_neg (by omega), if_neg (by omega)]
  · decide

/-- Witness for C1: at p = 18 with the default thresholds the middle branch
fires and the classification is Warning. -/
theorem claim_C1_witness :
    classify_battery_level defaultBatteryConfig 18 = BatteryStatus.warning :=
  (claim_C1 defaultBatteryConfig 18 (by decide) (by decide)).1.2.2.1
    (by decide) (by decide) (by decide)

/-- Claim C2: over any sequence of valid samples, the battery callback fires
exactly once per actual status transition (and only if the callback is
set), and the critical handling with its search invocation runs exactly
once per transition into Critical. -/
theorem claim_C2 (env : TelloEnv) (timeout : Nat) (s : SimState) (levels : List Int) :
    (runPolls env timeout s levels).2.count (Ev.callback Cb.battery)
      = (if s.battery_callback = true
         then countTransitions s.current_battery_status
                (levels.map (classify_battery_level s.battery_config))
         else 0)
    ∧ (runPolls env timeout s levels).2.count Ev.searchStart
      = countCriticalEntries s.current_battery_status
          (levels.map (classify_battery_level s.battery_config)) :=
  runPolls_count env timeout levels s

/-- Claim C3: the charging-spot search returns within the timeout plus at
most one final iteration (2.9 s), and with a frame source that never
yields a frame it returns false instead of hanging. -/
theorem claim_C3 (env : TelloEnv) (timeout : Nat) (s : SimState) :
    (search_charging_spot env timeout s).time ≤ timeout + 29
    ∧ ((∀ t, env.frames t = none) → (search_charging_spot env timeout s).ok = false) := by
  constructor
  · unfold search_charging_spot
    split
    · show (searchLoop env timeout timeout s 0).time ≤ timeout + 29
      have h := searchLoop_time_le env timeout timeout s 0
      omega
    · show (0 : Nat) ≤ timeout + 29
      omega
  · intro hnf
    unfold search_charging_spot
    split
    · exact searchLoop_noframes_false env timeout hnf timeout s 0
    · rfl

/-- Witness for C3: with no frames ever available and the default 30 s
timeout the search returns false, within the bound. -/
theorem claim_C3_witness :
    (search_charging_spot envNoFrames 300 defaultState).ok = false
    ∧ (search_charging_spot envNoFrames 300 defaultState).time ≤ 329 :=
  ⟨(claim_C3 envNoFrames 300 defaultState).2 (fun _ => rfl),
   (claim_C3 envNoFrames 300 defaultState).1⟩

/-- Claim C4: safe_command returns true exactly when some attempt among the
first retries attempts does not fail, and returns false (never raising)
when every attempt fails. -/
theorem claim_C4 (fails : Nat → Bool) (retries : Nat) :
    (safe_command fails retries = true ↔ ∃ i, 1 ≤ i ∧ i ≤ retries ∧ fails i = false)
    ∧ ((∀ i, 1 ≤ i → i ≤ retries → fails i = true) →
        safe_command fails retries = false) := by
  have hgo := safeCommandGo_true_iff fails retries 1
  have hiff : safe_command fails retries = true
      ↔ ∃ i, 1 ≤ i ∧ i ≤ retries ∧ fails i = false := by
    unfold safe_command
    rw [hgo]
    constructor
    · rintro ⟨k, hk, hf⟩
      exact ⟨1 + k, by omega, by omega, hf⟩
    · rintro ⟨i, h1, h2, hf⟩
      refine ⟨i - 1, by omega, ?_⟩
      have he : 1 + (i - 1) = i := by omega
      rw [he]
      exact hf
  refine ⟨hiff, ?_⟩
  intro hall
  by_contra hne
  have htrue : safe_command fails retries = true := by
    cases h : safe_command fails retries
    · exact absurd h hne
    · rfl
  obtain ⟨i, h1, h2, hf⟩ := hiff.mp htrue
  rw [hall i h1 h2] at hf
  simp at hf

/-- Witness for C4: an always-failing action exhausts its three attempts and
safe_command reports false. -/
theorem claim_C4_witness : safe_command (fun _ => true) 3 = false :=
  (claim_C4 (fun _ => true) 3).2 (fun _ _ _ => rfl)

/-- Counterexample for C5: update_config accepts a configuration whose
critical threshold is not below its warning threshold — nothing rejects
it. -/
theorem claim_C5_counterexample :
    (update_config defaultState badUpdate).1.battery_config.warning_threshold = 5
    ∧ (update_config defaultState badUpdate).1.battery_config.critical_threshold = 10
    ∧ ¬((update_config defaultState badUpdate).1.battery_config.critical_threshold
        < (update_config defaultState badUpdate).1.battery_config.warning_threshold) := by
  decide

/-- Claim C5 (amended): no configuration validation exists; initialization
and update_config store any supplied threshold values unconditionally, and
the ordering invariant holds only for the default configuration. -/
theorem claim_C5_amended (s : SimState) (u : ConfigUpdate) :
    ((update_config s u).1.battery_config.warning_threshold
        = u.warning_threshold.getD s.battery_config.warning_threshold
    ∧ (update_config s u).1.battery_config.critical_threshold
        = u.critical_threshold.getD s.battery_config.critical_threshold
    ∧ (update_config s u).1.battery_config.charging_threshold
        = u.charging_threshold.getD s.battery_config.charging_threshold
    ∧ (update_config s u).1.battery_config.check_interval
        = u.check_interval.getD s.battery_config.check_interval)
    ∧ (∀ (w c ch : Int) (ci : ℚ),
        (initState (some w) (some c) (some ch) (some ci)).battery_config
          = { warning_threshold := w, critical_threshold := c,
              charging_threshold := ch, check_interval := ci })
    ∧ (0 ≤ defaultState.battery_config.charging_threshold
       ∧ defaultState.battery_config.charging_threshold
           < defaultState.battery_config.critical_threshold
       ∧ defaultState.battery_config.critical_threshold
           < defaultState.battery_config.warning_threshold
       ∧ defaultState.battery_config.warning_threshold ≤ 100) := by
  refine ⟨?_, fun w c ch ci => rfl, by decide⟩
  obtain ⟨w, c, ch, ci⟩ := u
  cases w <;> cases c <;> cases ch <;> cases ci <;> exact ⟨rfl, rfl, rfl, rfl⟩

/-- Counterexample for C6: during a manual search the charging-spot-found
write executes at lock depth 0 (no guard held), while during a poll the
battery callback executes at lock depth 1 (guard held). -/
theorem claim_C6_counterexample :
    (Ev.write Fld.chargingSpotFound, 0)
        ∈ annot 0 (search_charging_spot envMarkerOnce 1 defaultState).events
    ∧ (Ev.callback Cb.battery, 1)
        ∈ annot 0 (process_battery_level envNoFrames 1
            (set_callbacks defaultState true true true) 3).2 := by
  decide

/-- Claim C6 (amended): all writes and all callback invocations inside
_process_battery_level execute while the guard is held; update_config and
reset write under the guard; every event of a manual search, including its
charging-spot writes, executes without the guard. -/
theorem claim_C6_amended (env : TelloEnv) (timeout : Nat) (s1 : SimState) (l : Int)
    (s2 : SimState) (u : ConfigUpdate) (s3 s4 : SimState) :
    (∀ f d, (Ev.write f, d) ∈ annot 0 (process_battery_level env timeout s1 l).2 → 0 < d)
    ∧ (∀ c d,
        (Ev.callback c, d) ∈ annot 0 (process_battery_level env timeout s1 l).2 → 0 < d)
    ∧ (∀ f d, (Ev.write f, d) ∈ annot 0 (update_config s2 u).2 → 0 < d)
    ∧ (∀ f d, (Ev.write f, d) ∈ annot 0 (reset_charging_spot_status s3).2 → 0 < d)
    ∧ (∀ e d, (e, d) ∈ annot 0 (search_charging_spot env timeout s4).events → d = 0) := by
  obtain ⟨mid, hmid, hmem⟩ := process_events_shape env timeout s1 l
  obtain ⟨midU, hmidU, hmemU⟩ := update_events_shape s2 u
  refine ⟨?_, ?_, ?_, ?_, ?_⟩
  · intro f d h
    rw [hmid] at h
    rcases mem_annot_guarded mid hmem _ d h with ⟨he, _⟩ | ⟨he, _⟩ | ⟨_, hd⟩
    · simp at he
    · simp at he
    · omega
  · intro c d h
    rw [hmid] at h
    rcases mem_annot_guarded mid hmem _ d h with ⟨he, _⟩ | ⟨he, _⟩ | ⟨_, hd⟩
    · simp at he
    · simp at he
    · omega
  · intro f d h
    rw [hmidU] at h
    rcases mem_annot_guarded midU hmemU _ d h with ⟨he, _⟩ | ⟨he, _⟩ | ⟨_, hd⟩
    · simp at he
    · simp at he
    · omega
  · intro f d h
    have hr : (reset_charging_spot_status s3).2
        = Ev.acquire :: [Ev.write Fld.chargingSpotFound, Ev.write Fld.chargingSpotPosition]
            ++ [Ev.release] := rfl
    have hrm : ∀ e ∈ [Ev.write Fld.chargingSpotFound, Ev.write Fld.chargingSpotPosition],
        e ≠ Ev.acquire ∧ e ≠ Ev.release := by
      intro e he
      rcases List.mem_cons.mp he with rfl | he
      · exact ⟨by decide, by decide⟩
      · rw [List.mem_singleton] at he
        subst he
        exact ⟨by decide, by decide⟩
    rw [hr] at h
    rcases mem_annot_guarded _ hrm _ d h with ⟨he, _⟩ | ⟨he, _⟩ | ⟨_, hd⟩
    · simp at he
    · simp at he
    · omega
  · intro e d h
    obtain ⟨ws, hws, hwsm⟩ := search_events_shape env timeout s4
    rw [hws] at h
    have hnl : ∀ x ∈ Ev.searchStart :: ws, x ≠ Ev.acquire ∧ x ≠ Ev.release := by
      intro x hx
      rcases List.mem_cons.mp hx with rfl | hx
      · exact ⟨by decide, by decide⟩
      · rcases hwsm x hx with rfl | rfl <;> exact ⟨by decide, by decide⟩
    rw [annot_noLock _ 0 hnl] at h
    obtain ⟨x, _, hxe⟩ := List.mem_map.mp h
    exact (congrArg Prod.snd hxe).symm

/-- Witness for C6 (amended): the lastBatteryLevel write of a concrete poll
sits at a positive lock depth. -/
theorem claim_C6_witness : 0 < 1 :=
  (claim_C6_amended envNoFrames 1 defaultState 3 defaultState badUpdate
      defaultState defaultState).1 Fld.lastBatteryLevel 1 (by decide)

/-- Claim C7: when the detector reports a marker on the first frame and again
on the frame re-fetched after the forward move, the approach succeeds and
the search — including its manual invocation — returns true immediately
(at 2.0 s elapsed); approach success holds exactly when a marker is still
detected on a present frame after the forward move. -/
theorem claim_C7 :
    (∀ (env : TelloEnv) (timeout : Nat) (s : SimState) (f1 f2 : Frame),
      env.has_frame_read = true →
      env.has_move_forward = true →
      env.frames 0 = some f1 → f1.markers ≠ [] →
      env.frames 20 = some f2 → f2.markers ≠ [] →
      0 < timeout →
      (search_charging_spot env timeout s).ok = true
      ∧ (search_charging_spot env timeout s).time = 20
      ∧ manual_charging_search env timeout s = true)
    ∧ (∀ (env : TelloEnv) (s : SimState) (t : Nat),
        env.has_move_forward = true →
        ((approach_charging_spot env s t).ok = true
          ↔ ∃ g, env.frames (t + 20) = some g ∧ g.markers ≠ [])) := by
  constructor
  · intro env timeout s f1 f2 hread hmv hf0 hm1 hf20 hm2 hpos
    have hsearch :
        (search_charging_spot env timeout s).ok = true
        ∧ (search_charging_spot env timeout s).time = 20 := by
      unfold search_charging_spot
      rw [if_pos hread]
      obtain ⟨k, rfl⟩ : ∃ k, timeout = k + 1 := ⟨timeout - 1, by omega⟩
      simp only [searchLoop]
      rw [if_pos (by omega : 0 < k + 1)]
      have hfound : (detect_aruco_markers s f1).found = true :=
        (detect_found_iff s f1).mpr hm1
      simp only [hf0]
      rw [if_pos hfound]
      have hok : (approach_charging_spot env (detect_aruco_markers s f1).state 0).ok = true :=
        (approach_ok_iff env _ 0 hmv).mpr ⟨f2, by simpa using hf20, hm2⟩
      rw [if_pos hok]
      have htime := approach_time_eq env (detect_aruco_markers s f1).state 0 hmv
      exact ⟨rfl, by simpa using htime⟩
    exact ⟨hsearch.1, hsearch.2, hsearch.1⟩
  · intro env s t hmv
    exact approach_ok_iff env s t hmv

/-- Witness for C7: a frame source reporting the marker at time 0 and after
the move makes the manual search succeed. -/
theorem claim_C7_witness :
    manual_charging_search envMarkerTwice 300 defaultState = true :=
  (claim_C7.1 envMarkerTwice 300 defaultState frame1 frame1 rfl rfl
    (by decide) (by decide) (by decide) (by decide) (by decide)).2.2

/-- Claim C8: when the live battery read fails, get_battery_info reports the
cached last battery level, with is_low and is_critical computed from that
cached level against the current warning and critical thresholds. -/
theorem claim_C8 (s : SimState) (raw : Option Int)
    (h : get_battery_level raw = none) :
    (get_battery_info s raw).current_level = s.last_battery_level
    ∧ ((get_battery_info s raw).is_low = true
        ↔ s.last_battery_level ≤ s.battery_config.warning_threshold)
    ∧ ((get_battery_info s raw).is_critical = true
        ↔ s.last_battery_level ≤ s.battery_config.critical_threshold) := by
  unfold get_battery_info
  rw [h]
  refine ⟨rfl, ?_, ?_⟩ <;> simp

/-- Witness for C8: an out-of-range raw reading of 200 fails validation and
the info falls back to the cached level 100. -/
theorem claim_C8_witness :
    (get_battery_info defaultState (some 200)).current_level = 100 :=
  (claim_C8 defaultState (some 200) (by decide)).1.trans rfl

/-- Counterexample for C9: stop_monitoring has no return statement, so its
Python return value is None, not a boolean. -/
theorem claim_C9_counterexample : (stop_monitoring defaultState).2 = none := rfl

/-- Claim C9 (amended): start_monitoring returns a boolean and a second
consecutive call returns false leaving the state unchanged;
stop_monitoring returns None rather than a boolean and is safe when
monitoring is not running, leaving the state unchanged. -/
theorem claim_C9_amended (s : SimState) :
    ((start_monitoring s).2 = some true ∨ (start_monitoring s).2 = some false)
    ∧ (stop_monitoring s).2 = none
    ∧ (start_monitoring (start_monitoring s).1).2 = some false
    ∧ (start_monitoring (start_monitoring s).1).1 = (start_monitoring s).1
    ∧ (s.is_monitoring = false → stop_monitoring s = (s, none)) := by
  by_cases h : s.is_monitoring = true
  · refine ⟨Or.inr ?_, rfl, ?_, ?_, ?_⟩
    · simp [start_monitoring, h]
    · simp [start_monitoring, h]
    · simp [start_monitoring, h]
    · intro hf
      rw [hf] at h
      simp at h
  · simp only [Bool.not_eq_true] at h
    refine ⟨Or.inl ?_, rfl, ?_, ?_, ?_⟩
    · simp [start_monitoring, h]
    · simp [start_monitoring, h]
    · simp [start_monitoring, h]
    · intro _
      unfold stop_monitoring
      cases s
      simp_all

/-- Witness for C9 (amended): stopping the freshly initialized (not
monitoring) instance changes nothing and yields None. -/
theorem claim_C9_witness : stop_monitoring defaultState = (defaultState, none) :=
  (claim_C9_amended defaultState).2.2.2.2 rfl

/-- Claim C10: from the initial state and under every operation sequence the
stored battery status is never the Charging variant, and the classifier
itself never produces Charging. -/
theorem claim_C10 (env : TelloEnv) (timeout : Nat) (ops : List Op)
    (w c ch : Option Int) (ci : Option ℚ) :
    (runOps env timeout (initState w c ch ci) ops).current_battery_status
      ≠ BatteryStatus.charging
    ∧ ∀ (cfg : BatteryConfig) (p : Int),
        classify_battery_level cfg p ≠ BatteryStatus.charging := by
  constructor
  · apply runOps_ne_charging
    intro hx
    exact BatteryStatus.noConfusion hx
  · exact fun cfg p => classify_ne_charging cfg p
